import Mathlib

/-!
Shallow embedding of the dndamage expected-damage calculator (src/main.rs).

Rust `f32` values are modelled as rationals (`ℚ`) and `i32` values as
integers (`ℤ`): every formula in the program is plain field arithmetic on
small literals, so the exact-arithmetic model captures the intended values.
-/

namespace DnD

/-- Expected value of a four-sided die, from the `expected_value!` macro. -/
def d4 : ℚ := (1 + 4) / 2

/-- Expected value of a six-sided die, from the `expected_value!` macro. -/
def d6 : ℚ := (1 + 6) / 2

/-- Expected value of an eight-sided die, from the `expected_value!` macro. -/
def d8 : ℚ := (1 + 8) / 2

/-- Expected value of a ten-sided die, from the `expected_value!` macro. -/
def d10 : ℚ := (1 + 10) / 2

/-- Expected value of a twelve-sided die, from the `expected_value!` macro. -/
def d12 : ℚ := (1 + 12) / 2

/-- `struct Damage { dmg: f32, fixed: i32 }` — the fixed part is not
multiplied on a critical hit. -/
structure Damage where
  dmg : ℚ
  fixed : ℤ
deriving DecidableEq, Repr

/-- `struct Attack { hit: i32, dmg: Damage, crit: Damage }`. -/
structure Attack where
  hit : ℤ
  dmg : Damage
  crit : Damage
deriving DecidableEq, Repr

/-- `struct Turn { action: Vec<Attack>, bonus_action: Vec<Attack>,
once_on_hit: Damage }`. -/
structure Turn where
  action : List Attack
  bonus_action : List Attack
  once_on_hit : Damage
deriving DecidableEq, Repr

/-- `struct HuntersMark { unmodified: Turn, first_turn: Turn,
max_damage: Turn }`. -/
structure HuntersMark where
  unmodified : Turn
  first_turn : Turn
  max_damage : Turn
deriving DecidableEq, Repr

/-- `Damage::hit`: `self.dmg + self.fixed as f32`. -/
def Damage.hit (s : Damage) : ℚ := s.dmg + (s.fixed : ℚ)

/-- `Damage::crit`: `self.dmg + self.hit()` — a critical hit doubles the
non-fixed damage. -/
def Damage.crit (s : Damage) : ℚ := s.dmg + s.hit

/-- `impl Add for Damage`: componentwise addition. -/
def Damage.add (a b : Damage) : Damage := ⟨a.dmg + b.dmg, a.fixed + b.fixed⟩

instance instAddDamage : Add Damage := ⟨Damage.add⟩

@[simp] lemma Damage.add_dmg (a b : Damage) : (a + b).dmg = a.dmg + b.dmg := rfl

@[simp] lemma Damage.add_fixed (a b : Damage) : (a + b).fixed = a.fixed + b.fixed := rfl

/-- `impl Add for Attack`: fieldwise addition. -/
instance instAddAttack : Add Attack where
  add a b := ⟨a.hit + b.hit, a.dmg + b.dmg, a.crit + b.crit⟩

/-- `impl Add<Damage> for Attack`: adds to the on-hit damage only. -/
instance instHAddAttackDamage : HAdd Attack Damage Attack where
  hAdd a s := ⟨a.hit, a.dmg + s, a.crit⟩

/-- `impl Add<Damage> for Turn`: adds the damage to every attack of both
the action and the bonus action; `once_on_hit` unchanged. -/
instance instHAddTurnDamage : HAdd Turn Damage Turn where
  hAdd t s :=
    ⟨t.action.map (fun a => a + s), t.bonus_action.map (fun a => a + s), t.once_on_hit⟩

/-- `Attack::hit_chance`: `18.min(0.max(20 + self.hit - ac)) as f32 / 20.0`
— excludes the natural 20 and treats a natural 1 as a miss. -/
def Attack.hit_chance (a : Attack) (ac : ℤ) : ℚ :=
  ((min 18 (max 0 (20 + a.hit - ac)) : ℤ) : ℚ) / 20

/-- `impl ExpectedDamage for Attack`:
`hit_chance(ac) * dmg.hit() + (1/20) * (dmg.crit() + crit.crit())`. -/
def Attack.expected_damage (a : Attack) (ac : ℤ) : ℚ :=
  a.hit_chance ac * a.dmg.hit + (1 / 20) * (a.dmg.crit + a.crit.crit)

/-- One step of the loop body in `impl ExpectedDamage for Turn`, acting on
the state `(total, miss, first_crit)`. -/
def turnStep (ac : ℤ) (st : ℚ × ℚ × ℚ) (d : Attack) : ℚ × ℚ × ℚ :=
  (st.1 + d.expected_damage ac,
   st.2.1 * (1 - (d.hit_chance ac + 1 / 20)),
   st.2.2 + (1 / 20) * st.2.1)

/-- `impl ExpectedDamage for Turn`: the forward pass over
`action.iter().chain(bonus_action.iter())` with running `total`, `miss`
and `first_crit`, followed by the once-per-turn contributions. -/
def Turn.expected_damage (t : Turn) (ac : ℤ) : ℚ :=
  let s := (t.action ++ t.bonus_action).foldl (turnStep ac) (0, 1, 0)
  s.1 + (1 - s.2.1) * t.once_on_hit.hit + s.2.2 * t.once_on_hit.dmg

/-- `Turn::mark` (Hunters Mark): keeps the original turn, a first turn
with no bonus action, and a max-damage turn with a d6 added to every
attacks on-hit damage. -/
def Turn.mark (t : Turn) : HuntersMark :=
  let bonus : Damage := ⟨d6, 0⟩
  { unmodified := t
    first_turn := { action := t.action, bonus_action := [], once_on_hit := t.once_on_hit }
    max_damage := t + bonus }

/-- `HuntersMark::breakeven`: `(max, 1 + ceil((base - first)/(max - base)),
first - base)`. -/
def HuntersMark.breakeven (h : HuntersMark) (ac : ℤ) : ℚ × ℤ × ℚ :=
  let base := h.unmodified.expected_damage ac
  let first := h.first_turn.expected_damage ac
  let maxd := h.max_damage.expected_damage ac
  (maxd, 1 + ⌈(base - first) / (maxd - base)⌉, first - base)

end DnD

namespace DnD

/-- C1: For every attack and defense value, the expected damage equals
the hit chance times `on_hit.average_roll + on_hit.flat`, plus `1/20` times
the critical contribution, in which the `average_roll` components of both
`on_hit` and `on_crit_bonus` appear doubled while the `flat` components
appear once. -/
theorem attack_expected_damage_formula (a : Attack) (ac : ℤ) :
    a.expected_damage ac =
      a.hit_chance ac * (a.dmg.dmg + (a.dmg.fixed : ℚ)) +
        (1 / 20) *
          ((a.dmg.dmg + (a.dmg.fixed : ℚ) + a.dmg.dmg) +
            (a.crit.dmg + (a.crit.fixed : ℚ) + a.crit.dmg)) := by
  simp only [Attack.expected_damage, Damage.hit, Damage.crit]
  ring

/-- Spec-side formulation of the Turn algorithm (the words of C4): a single
forward pass over the attacks carrying `total`, `miss_all` and
`first_crit_weight`; for each attack it adds the single-attack expected
damage to the total, adds `(1/20) * miss_all` to `first_crit_weight`, then
multiplies `miss_all` by `1 - (hit_chance + 1/20)`. -/
def turnPass (ac : ℤ) : List Attack → ℚ → ℚ → ℚ → ℚ × ℚ × ℚ
  | [], total, missAll, fcw => (total, missAll, fcw)
  | a :: rest, total, missAll, fcw =>
      turnPass ac rest (total + a.expected_damage ac)
        (missAll * (1 - (a.hit_chance ac + 1 / 20)))
        (fcw + (1 / 20) * missAll)

/-- Spec-side formulation of `Turn::expected_damage` (the words of C4): run the
pass over primary then secondary attacks with `miss_all = 1` and
`first_crit_weight = 0`, then add `(1 - miss_all)` times the once-per-turn
`average_roll + flat` and `first_crit_weight` times the once-per-turn
`average_roll`. -/
def turnExpectedDamageSpec (t : Turn) (ac : ℤ) : ℚ :=
  let s := turnPass ac (t.action ++ t.bonus_action) 0 1 0
  s.1 + (1 - s.2.1) * (t.once_on_hit.dmg + (t.once_on_hit.fixed : ℚ)) +
    s.2.2 * t.once_on_hit.dmg

lemma foldl_turnStep_eq_turnPass (ac : ℤ) (l : List Attack) :
    ∀ total missAll fcw : ℚ,
      l.foldl (turnStep ac) (total, missAll, fcw) = turnPass ac l total missAll fcw := by
  induction l with
  | nil => intro total missAll fcw; rfl
  | cons a rest ih =>
      intro total missAll fcw
      simp only [List.foldl_cons, turnStep, turnPass]
      exact ih _ _ _

/-- C4: The turn-level expected damage is exactly the single forward
pass the spec describes: primary then secondary attacks, `miss_all`
starting at 1 and `first_crit_weight` at 0, per-attack updates in the
stated order, and the two once-per-turn contributions added after the
loop. -/
theorem turn_expected_damage_is_forward_pass (t : Turn) (ac : ℤ) :
    t.expected_damage ac = turnExpectedDamageSpec t ac := by
  unfold Turn.expected_damage turnExpectedDamageSpec Damage.hit
  rw [foldl_turnStep_eq_turnPass]

lemma foldl_turnStep_fst (ac : ℤ) (l : List Attack) :
    ∀ st : ℚ × ℚ × ℚ,
      (l.foldl (turnStep ac) st).1 = st.1 + (l.map (fun a => a.expected_damage ac)).sum := by
  induction l with
  | nil => intro st; simp
  | cons a rest ih =>
      intro st
      simp only [List.foldl_cons, List.map_cons, List.sum_cons, turnStep, ih]
      ring

/-- C9: A turn made of `n + m` identical copies of an attack — `n`
primary and `m` secondary, any split — with a zero once-per-turn value has
expected damage `(n + m)` times the single attacks expected damage. -/
theorem turn_replicate_linearity (a : Attack) (n m : ℕ) (ac : ℤ) :
    Turn.expected_damage ⟨List.replicate n a, List.replicate m a, ⟨0, 0⟩⟩ ac =
      ((n + m : ℕ) : ℚ) * a.expected_damage ac := by
  simp only [Turn.expected_damage, Damage.hit]
  rw [foldl_turnStep_fst]
  simp [List.map_append, List.sum_append, List.map_replicate, List.sum_replicate,
    nsmul_eq_mul]

/-- C10: A turn with no primary and no secondary attacks has expected
damage 0 at every defense value, whatever its once-per-turn damage value
is. -/
theorem empty_turn_expected_damage (d : Damage) (ac : ℤ) :
    Turn.expected_damage ⟨[], [], d⟩ ac = 0 := by
  simp [Turn.expected_damage]

/-- C2 counterexample: The formula claimed `clamp(20 + hit_bonus − d, 1, 19) / 20`
fails on the zero-bonus attack at defense 20: the code returns `0`, not `1/20`,
so the ordinary hit probability does drop below `1/20`. -/
theorem hit_chance_clamp_claim_false :
    Attack.hit_chance ⟨0, ⟨0, 0⟩, ⟨0, 0⟩⟩ 20 ≠
      ((min 19 (max 1 (20 + (0 : ℤ) - 20)) : ℤ) : ℚ) / 20 ∧
    Attack.hit_chance ⟨0, ⟨0, 0⟩, ⟨0, 0⟩⟩ 20 < 1 / 20 := by
  constructor <;> norm_num [Attack.hit_chance]

/-- C2 amended: For every attack and integer defense value,
`hit_chance(a, d) = clamp(20 + a.hit_bonus − d, 0, 18) / 20`: the ordinary
(non-natural-20) hit probability is never below `0` and never above `18/20`
(a natural 1 always misses and the natural 20 is accounted separately, so at
most the 18 rolls 2–19 can hit). -/
theorem hit_chance_clamp (a : Attack) (ac : ℤ) :
    a.hit_chance ac = ((min 18 (max 0 (20 + a.hit - ac)) : ℤ) : ℚ) / 20 ∧
    0 ≤ a.hit_chance ac ∧ a.hit_chance ac ≤ 18 / 20 := by
  have h0 : (0 : ℤ) ≤ min 18 (max 0 (20 + a.hit - ac)) :=
    le_min (by norm_num) (le_max_left _ _)
  have h18 : min 18 (max 0 (20 + a.hit - ac)) ≤ 18 := min_le_left _ _
  refine ⟨rfl, ?_, ?_⟩
  · unfold Attack.hit_chance
    have : (0 : ℚ) ≤ ((min 18 (max 0 (20 + a.hit - ac)) : ℤ) : ℚ) := by
      exact_mod_cast h0
    positivity
  · unfold Attack.hit_chance
    have : ((min 18 (max 0 (20 + a.hit - ac)) : ℤ) : ℚ) ≤ 18 := by
      exact_mod_cast h18
    linarith

/-- C3: The attack with hit bonus 0, on-hit damage `{average_roll: 0,
flat: 20}` and zero crit bonus has expected damage 10 at defense 11, 1 at
defenses 20 and 21 (clamp floor), and 19 at defenses 2 and 1 (clamp
ceiling). -/
theorem flat20_expected_damage_values :
    Attack.expected_damage ⟨0, ⟨0, 20⟩, ⟨0, 0⟩⟩ 11 = 10 ∧
    Attack.expected_damage ⟨0, ⟨0, 20⟩, ⟨0, 0⟩⟩ 20 = 1 ∧
    Attack.expected_damage ⟨0, ⟨0, 20⟩, ⟨0, 0⟩⟩ 21 = 1 ∧
    Attack.expected_damage ⟨0, ⟨0, 20⟩, ⟨0, 0⟩⟩ 2 = 19 ∧
    Attack.expected_damage ⟨0, ⟨0, 20⟩, ⟨0, 0⟩⟩ 1 = 19 := by
  refine ⟨?_, ?_, ?_, ?_, ?_⟩ <;>
    norm_num [Attack.expected_damage, Attack.hit_chance, Damage.hit, Damage.crit]

/-- Concrete Hunters Mark set used to exercise `breakeven` away from the
degenerate divisor: mark applied to a single-attack turn. -/
def markExample : HuntersMark :=
  Turn.mark ⟨[⟨0, ⟨0, 20⟩, ⟨0, 0⟩⟩], [], ⟨0, 0⟩⟩

/-- C5: When the sustained and baseline expectations differ, `breakeven`
returns exactly the triple `(max, 1 + ⌈(base − first) / (max − base)⌉,
first − base)` computed from the three turn-level expectations. -/
theorem breakeven_formula (s : HuntersMark) (ac : ℤ)
    (_h : s.max_damage.expected_damage ac ≠ s.unmodified.expected_damage ac) :
    s.breakeven ac =
      (s.max_damage.expected_damage ac,
       1 + ⌈(s.unmodified.expected_damage ac - s.first_turn.expected_damage ac) /
            (s.max_damage.expected_damage ac - s.unmodified.expected_damage ac)⌉,
       s.first_turn.expected_damage ac - s.unmodified.expected_damage ac) := rfl

/-- Witness for C5 at a concrete non-degenerate input. -/
theorem breakeven_formula_witness :
    markExample.max_damage.expected_damage 11 ≠
      markExample.unmodified.expected_damage 11 ∧
    markExample.breakeven 11 =
      (markExample.max_damage.expected_damage 11,
       1 + ⌈(markExample.unmodified.expected_damage 11 -
              markExample.first_turn.expected_damage 11) /
            (markExample.max_damage.expected_damage 11 -
              markExample.unmodified.expected_damage 11)⌉,
       markExample.first_turn.expected_damage 11 -
         markExample.unmodified.expected_damage 11) := by
  have h : markExample.max_damage.expected_damage 11 ≠
      markExample.unmodified.expected_damage 11 := by
    norm_num [markExample, Turn.mark, Turn.expected_damage, turnStep,
      Attack.expected_damage, Attack.hit_chance, Damage.hit, Damage.crit,
      Damage.add, instAddDamage, instHAddAttackDamage, instHAddTurnDamage, d6]
  exact ⟨h, breakeven_formula markExample 11 h⟩

/-- C6: The code does not guard the degenerate case `max == base`: on a
Hunters Mark set whose sustained and baseline expectations coincide (mark
of the empty turn), `breakeven` still divides by the zero difference and
returns a plain numeric triple — there is no signalled outcome in its
result type. -/
theorem breakeven_degenerate_no_signal :
    (Turn.mark ⟨[], [], ⟨0, 0⟩⟩).max_damage.expected_damage 10 =
      (Turn.mark ⟨[], [], ⟨0, 0⟩⟩).unmodified.expected_damage 10 ∧
    (Turn.mark ⟨[], [], ⟨0, 0⟩⟩).breakeven 10 = (0, 1, 0) := by
  norm_num [Turn.mark, HuntersMark.breakeven, Turn.expected_damage, turnStep,
    Damage.hit, instHAddTurnDamage]

/-- C7: `mark` keeps the turn itself as the baseline, drops the
secondary attacks (keeping primary attacks and the once-per-turn value) in
the first round, and for the sustained variant adds the six-sided-die
average to every attacks on-hit `average_roll` while leaving `once_per_turn`
unchanged; baseline and sustained have the same attack counts. -/
theorem mark_shape (t : Turn) :
    (t.mark).unmodified = t ∧
    (t.mark).first_turn = ⟨t.action, [], t.once_on_hit⟩ ∧
    (t.mark).max_damage.action =
      t.action.map (fun a => ⟨a.hit, a.dmg + ⟨d6, 0⟩, a.crit⟩) ∧
    (t.mark).max_damage.bonus_action =
      t.bonus_action.map (fun a => ⟨a.hit, a.dmg + ⟨d6, 0⟩, a.crit⟩) ∧
    (t.mark).max_damage.once_on_hit = t.once_on_hit ∧
    (t.mark).max_damage.action.length = t.action.length ∧
    (t.mark).max_damage.bonus_action.length = t.bonus_action.length := by
  refine ⟨rfl, rfl, rfl, rfl, rfl, ?_, ?_⟩ <;>
    simp [Turn.mark, instHAddTurnDamage]

/-- C8: Damage-value addition is componentwise on both the
`average_roll` and the `flat` component, and it is commutative and
associative. -/
theorem damage_add_componentwise_comm_assoc :
    (∀ a b : Damage, (a + b).dmg = a.dmg + b.dmg ∧ (a + b).fixed = a.fixed + b.fixed) ∧
    (∀ a b : Damage, a + b = b + a) ∧
    (∀ a b c : Damage, a + b + c = a + (b + c)) := by
  refine ⟨fun a b => ⟨rfl, rfl⟩, fun a b => ?_, fun a b c => ?_⟩
  · cases a; cases b
    simp only [HAdd.hAdd, Add.add, Damage.add, Damage.mk.injEq]
    exact ⟨add_comm _ _, add_comm _ _⟩
  · cases a; cases b; cases c
    simp only [HAdd.hAdd, Add.add, Damage.add, Damage.mk.injEq]
    exact ⟨add_assoc _ _ _, add_assoc _ _ _⟩

end DnD
